import Mathlib

/-!
Verification of libmobi utility functions (src/MobiFile/lib/util.c) against
the natural-language specification.  The C data structures of mobi.h are
shallowly embedded: machine integers become Nat (with explicit wrap where
uint32 overflow matters), nullable pointers become Option, NUL-terminated
C strings become String, byte buffers become List Nat, and the intrusive
singly-linked record / EXTH lists become Lean lists.
-/

/-- Error codes returned by functions (MOBI_RET enum of mobi.h). -/
inductive MOBI_RET where
  | MOBI_SUCCESS
  | MOBI_ERROR
  | MOBI_PARAM_ERR
  | MOBI_DATA_CORRUPT
  | MOBI_FILE_NOT_FOUND
  | MOBI_FILE_ENCRYPTED
  | MOBI_FILE_UNSUPPORTED
  | MOBI_MALLOC_FAILED
  | MOBI_INIT_FAILED
  | MOBI_BUFFER_END
  | MOBI_XML_ERR
deriving DecidableEq, Repr

export MOBI_RET (MOBI_SUCCESS MOBI_ERROR MOBI_PARAM_ERR MOBI_DATA_CORRUPT
  MOBI_FILE_NOT_FOUND MOBI_FILE_ENCRYPTED MOBI_FILE_UNSUPPORTED
  MOBI_MALLOC_FAILED MOBI_INIT_FAILED MOBI_BUFFER_END MOBI_XML_ERR)

/-- Modelled from the spec: the not-set sentinel.  The macro lives in util.h,
which is not part of the sources; spec section 3 fixes it as 0xFFFFFFFF. -/
def MOBI_NOTSET : Nat := 4294967295

/-- Modelled from the spec: text-encoding id for CP1252 (MOBIEncoding value of
util.h, not in the sources; spec section 3 fixes the id 1252). -/
def MOBI_CP1252 : Nat := 1252

/-- Modelled from the spec: text-encoding id for UTF-8 (MOBIEncoding value of
util.h, not in the sources; spec section 3 fixes the id 65001). -/
def MOBI_UTF8 : Nat := 65001

/-- Modelled from the spec: Record-0 encryption code 1, old Mobipocket
encryption (RECORD0_OLD_ENCRYPTION of util.h, not in the sources;
spec section 3 fixes the code). -/
def RECORD0_OLD_ENCRYPTION : Nat := 1

/-- Modelled from the spec: Record-0 encryption code 2, Mobipocket encryption
(RECORD0_MOBI_ENCRYPTION of util.h, not in the sources; spec section 3
fixes the code). -/
def RECORD0_MOBI_ENCRYPTION : Nat := 2

/-- EXTH tag 121, the KF8 boundary (EXTH_KF8BOUNDARY of mobi.h). -/
def EXTH_KF8BOUNDARY : Nat := 121

/-- Header of the palm database file (MOBIPdbHeader); only the fields read by
the verified operations are carried. -/
structure MOBIPdbHeader where
  type : String
  creator : String
deriving DecidableEq, Repr

/-- Metadata and data of a palm database record (MOBIPdbRecord).  The `next`
pointers of the intrusive list become the surrounding Lean list. -/
structure MOBIPdbRecord where
  offset : Nat
  size : Nat
  attributes : Nat
  uid : Nat
  data : List Nat
deriving DecidableEq, Repr

/-- Metadata and data of an EXTH record (MOBIExthHeader); the linked list
becomes a Lean list. -/
structure MOBIExthHeader where
  tag : Nat
  size : Nat
  data : List Nat
deriving DecidableEq, Repr

/-- Header of the Record 0 meta-record (MOBIRecord0Header). -/
structure MOBIRecord0Header where
  compression_type : Nat
  text_length : Nat
  text_record_count : Nat
  text_record_size : Nat
  encryption_type : Nat
  unknown1 : Nat
deriving DecidableEq, Repr

/-- MOBI header following the Record 0 header (MOBIMobiHeader).  Every field
of the C struct is a nullable pointer; only the fields read by the verified
operations are carried, each as an Option. -/
structure MOBIMobiHeader where
  text_encoding : Option Nat
  version : Option Nat
  full_name_offset : Option Nat
  full_name_length : Option Nat
  image_index : Option Nat
  fdst_index : Option Nat
  fdst_section_count : Option Nat
  last_text_index : Option Nat
  extra_flags : Option Nat
deriving DecidableEq, Repr

/-- Main structure holding all metadata and unparsed record data (MOBIData).
The C field `rec` is called `records` here because `rec` is reserved for the
recursor of the structure.  The circular `next` link of hybrid files is
modelled separately by MOBIHybrid, since a shallow embedding cannot hold a
circular pointer. -/
structure MOBIData' where
  use_kf8 : Bool
  kf8_boundary_offset : Nat
  ph : Option MOBIPdbHeader
  rh : Option MOBIRecord0Header
  mh : Option MOBIMobiHeader
  eh : List MOBIExthHeader
  records : List MOBIPdbRecord
deriving DecidableEq, Repr

/-- The two nodes of the circular MOBIData list of a hybrid file: `main` is
the node passed to mobi_swap_mobidata, `other` is its `next`. -/
structure MOBIHybrid where
  main : MOBIData'
  other : MOBIData'
deriving DecidableEq, Repr

/-- mobi_get_encoding (util.c): UTF-8 only when the MOBI header and its
text_encoding field are present and hold the UTF-8 code, CP1252 otherwise. -/
def mobi_get_encoding (om : Option MOBIData') : Nat :=
  match om with
  | some m =>
    match m.mh with
    | some mh =>
      match mh.text_encoding with
      | some te => if te = MOBI_UTF8 then MOBI_UTF8 else MOBI_CP1252
      | none => MOBI_CP1252
    | none => MOBI_CP1252
  | none => MOBI_CP1252

/-- mobi_is_cp1252 (util.c). -/
def mobi_is_cp1252 (om : Option MOBIData') : Bool :=
  mobi_get_encoding om = MOBI_CP1252

/-- mobi_is_mobipocket (util.c): PDB type "BOOK" and creator "MOBI". -/
def mobi_is_mobipocket (om : Option MOBIData') : Bool :=
  match om with
  | none => false
  | some m =>
    match m.ph with
    | none => false
    | some ph => ph.type = "BOOK" && ph.creator = "MOBI"

/-- mobi_is_encrypted (util.c): Mobipocket file whose Record-0 encryption type
is one of the two encryption codes. -/
def mobi_is_encrypted (om : Option MOBIData') : Bool :=
  match om with
  | none => false
  | some m =>
    mobi_is_mobipocket (some m) &&
      (match m.rh with
       | some rh =>
         rh.encryption_type = RECORD0_OLD_ENCRYPTION ||
           rh.encryption_type = RECORD0_MOBI_ENCRYPTION
       | none => false)

/-- mobi_is_hybrid (util.c): the cached kf8_boundary_offset is not the
not-set sentinel. -/
def mobi_is_hybrid (om : Option MOBIData') : Bool :=
  match om with
  | none => false
  | some m => m.kf8_boundary_offset ≠ MOBI_NOTSET

/-- mobi_get_fileversion (util.c): stored version if the MOBI header carries
one, 1 for ancient files, MOBI_NOTSET on a null document. -/
def mobi_get_fileversion (om : Option MOBIData') : Nat :=
  match om with
  | none => MOBI_NOTSET
  | some m =>
    match m.mh with
    | some mh =>
      match mh.version with
      | some v => v
      | none => 1
    | none => 1

/-- mobi_get_kf8offset (util.c): boundary + 1 when the KF8 half of a hybrid
file is selected, 0 otherwise. -/
def mobi_get_kf8offset (m : MOBIData') : Nat :=
  if m.use_kf8 && m.kf8_boundary_offset ≠ MOBI_NOTSET then
    m.kf8_boundary_offset + 1
  else 0

/-- mobi_get_record_by_seqnumber (util.c): walk the record list counting from
0; `num`-th node or NULL. -/
def mobi_get_record_by_seqnumber (m : MOBIData') (num : Nat) :
    Option MOBIPdbRecord :=
  m.records.get? num

/-- mobi_get_record_by_uid (util.c): first record with the given uid. -/
def mobi_get_record_by_uid (m : MOBIData') (uid : Nat) :
    Option MOBIPdbRecord :=
  m.records.find? (fun r => r.uid = uid)

/-- mobi_get_exthrecord_by_tag (util.c): first EXTH record with the given
tag. -/
def mobi_get_exthrecord_by_tag (m : MOBIData') (tag : Nat) :
    Option MOBIExthHeader :=
  m.eh.find? (fun e => e.tag = tag)

/-- Inner loop of mobi_decode_exthvalue: `while (i--) val |= *data++ << (i*8)`,
big-endian accumulation into a 32-bit value. -/
def exthValGo : Nat → List Nat → Nat → Nat
  | 0, _, val => val
  | _ + 1, [], val => val
  | i + 1, b :: rest, val => exthValGo i rest (val ||| (b <<< (i * 8)))

/-- mobi_decode_exthvalue (util.c): big-endian value of the payload, clamped
to 4 bytes. -/
def mobi_decode_exthvalue (data : List Nat) (size : Nat) : Nat :=
  exthValGo (min size 4) data 0

/-- ASCII bytes of "BOUNDARY", compared by memcmp in
mobi_get_kf8boundary_seqnumber. -/
def boundaryBytes : List Nat := [66, 79, 85, 78, 68, 65, 82, 89]

/-- mobi_get_kf8boundary_seqnumber (util.c): decode EXTH tag 121, decrement
the uint32 record number, and check the referenced record for the BOUNDARY
magic; MOBI_NOTSET in every other case. -/
def mobi_get_kf8boundary_seqnumber (om : Option MOBIData') : Nat :=
  match om with
  | none => MOBI_NOTSET
  | some m =>
    match mobi_get_exthrecord_by_tag m EXTH_KF8BOUNDARY with
    | none => MOBI_NOTSET
    | some e =>
      let v := mobi_decode_exthvalue e.data e.size
      let r := (v + 4294967295) % 4294967296
      match mobi_get_record_by_seqnumber m r with
      | none => MOBI_NOTSET
      | some record =>
        if record.data.take 8 = boundaryBytes then r else MOBI_NOTSET

/-- mobi_parse_kf8 (util.c): select the KF8 half; INIT_FAILED on NULL. -/
def mobi_parse_kf8 (om : Option MOBIData') : MOBI_RET × Option MOBIData' :=
  match om with
  | none => (MOBI_INIT_FAILED, none)
  | some m => (MOBI_SUCCESS, some { m with use_kf8 := true })

/-- mobi_parse_kf7 (util.c): select the KF7 half; INIT_FAILED on NULL. -/
def mobi_parse_kf7 (om : Option MOBIData') : MOBI_RET × Option MOBIData' :=
  match om with
  | none => (MOBI_INIT_FAILED, none)
  | some m => (MOBI_SUCCESS, some { m with use_kf8 := false })

/-- mobi_swap_mobidata (util.c): copy the node's rh/mh/eh pointers into a
temporary, overwrite them with the next node's, and write the temporary into
the next node.  The two nodes of the circular list are the fields of
MOBIHybrid. -/
def mobi_swap_mobidata (h : MOBIHybrid) : MOBI_RET × MOBIHybrid :=
  let tmp_rh := h.main.rh
  let tmp_mh := h.main.mh
  let tmp_eh := h.main.eh
  (MOBI_SUCCESS,
    { main := { h.main with rh := h.other.rh, mh := h.other.mh, eh := h.other.eh }
      other := { h.other with rh := tmp_rh, mh := tmp_mh, eh := tmp_eh } })

/-- Walk of mobi_delete_record_by_seqnumber: unlink the `num`-th node,
relinking its predecessor; reaching the end of the list is also SUCCESS. -/
def deleteRecGo : List MOBIPdbRecord → Nat → MOBI_RET × List MOBIPdbRecord
  | [], _ => (MOBI_SUCCESS, [])
  | _ :: rest, 0 => (MOBI_SUCCESS, rest)
  | c :: rest, n + 1 =>
    let p := deleteRecGo rest n
    (p.1, c :: p.2)

/-- mobi_delete_record_by_seqnumber (util.c): INIT_FAILED on a NULL document
or an empty record list, otherwise unlink the `num`-th record (SUCCESS even
when `num` is past the end). -/
def mobi_delete_record_by_seqnumber (om : Option MOBIData') (num : Nat) :
    MOBI_RET × Option MOBIData' :=
  match om with
  | none => (MOBI_INIT_FAILED, none)
  | some m =>
    match m.records with
    | [] => (MOBI_INIT_FAILED, some m)
    | _ =>
      let p := deleteRecGo m.records num
      (p.1, some { m with records := p.2 })

/-- mobi_exists_mobiheader (util.c). -/
def mobi_exists_mobiheader (om : Option MOBIData') : Bool :=
  match om with
  | none => false
  | some m => m.mh.isSome

/-- mobi_exists_fdst (util.c): for file version at least 8 the fdst_index
field must be present and set; otherwise fdst_section_count must be present
and greater than 1. -/
def mobi_exists_fdst (om : Option MOBIData') : Bool :=
  if !mobi_exists_mobiheader om then false
  else
    match om with
    | none => false
    | some m =>
      match m.mh with
      | none => false
      | some mh =>
        if 8 ≤ mobi_get_fileversion (some m) then
          match mh.fdst_index with
          | some fi => fi ≠ MOBI_NOTSET
          | none => false
        else
          match mh.fdst_section_count with
          | some c => 1 < c
          | none => false

/-- mobi_get_fdst_record_number (util.c).  The C function dereferences
m->mh and possibly m->mh->last_text_index without a null check; `none`
marks those undefined executions. -/
def mobi_get_fdst_record_number (m : MOBIData') : Option Nat :=
  let offset := mobi_get_kf8offset m
  match m.mh with
  | none => none
  | some mh =>
    let fdstOk : Bool :=
      match mh.fdst_index with
      | some fi => decide (fi ≠ MOBI_NOTSET)
      | none => false
    let countOk : Bool :=
      match mh.fdst_section_count with
      | some c => decide (1 < c)
      | none => false
    if fdstOk && countOk then
      some ((mh.fdst_index.getD 0) + offset)
    else if countOk then
      match mh.last_text_index with
      | some lt => some lt
      | none => none
    else
      some MOBI_NOTSET

/-- Lookup table for cp1252 to utf8 encoding conversion (the 32-entry
`cp1252_to_utf8` array of util.c, rows for input bytes 0x80..0x9F; rows of
three bytes, zero-padded, all-zero rows for the unassigned bytes). -/
def cp1252_to_utf8_table : List (List Nat) := [
  [0xe2, 0x82, 0xac],
  [0, 0, 0],
  [0xe2, 0x80, 0x9a],
  [0xc6, 0x92, 0],
  [0xe2, 0x80, 0x9e],
  [0xe2, 0x80, 0xa6],
  [0xe2, 0x80, 0xa0],
  [0xe2, 0x80, 0xa1],
  [0xcb, 0x86, 0],
  [0xe2, 0x80, 0xb0],
  [0xc5, 0xa0, 0],
  [0xe2, 0x80, 0xb9],
  [0xc5, 0x92, 0],
  [0, 0, 0],
  [0xc5, 0xbd, 0],
  [0, 0, 0],
  [0, 0, 0],
  [0xe2, 0x80, 0x98],
  [0xe2, 0x80, 0x99],
  [0xe2, 0x80, 0x9c],
  [0xe2, 0x80, 0x9d],
  [0xe2, 0x80, 0xa2],
  [0xe2, 0x80, 0x93],
  [0xe2, 0x80, 0x94],
  [0xcb, 0x9c, 0],
  [0xe2, 0x84, 0xa2],
  [0xc5, 0xa1, 0],
  [0xe2, 0x80, 0xba],
  [0xc5, 0x93, 0],
  [0, 0, 0],
  [0xc5, 0xbe, 0],
  [0xc5, 0xb8, 0]]

/-- Bytes written for a table row: the inner `while (i < 3)` loop of
mobi_cp1252_to_utf8 copies row bytes up to the first zero. -/
def cp1252RowBytes (i : Nat) : List Nat :=
  (cp1252_to_utf8_table.getD i []).takeWhile (fun c => c ≠ 0)

/-- Conversion loop of mobi_cp1252_to_utf8: `pos` is the write position
(out - output), `outlen` the buffer room (*outsize); the loop runs while the
input byte is non-NUL and `pos < outlen`.  `none` is the MOBI_DATA_CORRUPT
return taken on an unassigned 0x80..0x9F byte; otherwise the emitted bytes
are returned. -/
def cp1252Go : List Nat → Nat → Nat → Option (List Nat)
  | [], _, _ => some []
  | b :: rest, pos, outlen =>
    if b = 0 then some []
    else if outlen ≤ pos then some []
    else if b < 0x80 then
      (cp1252Go rest (pos + 1) outlen).map (fun t => b :: t)
    else if b < 0xa0 then
      let entry := cp1252RowBytes (b - 0x80)
      if entry = [] then none
      else (cp1252Go rest (pos + entry.length) outlen).map (fun t => entry ++ t)
    else if b < 0xc0 then
      (cp1252Go rest (pos + 2) outlen).map (fun t => 0xc2 :: b :: t)
    else
      (cp1252Go rest (pos + 2) outlen).map
        (fun t => 0xc3 :: ((b &&& 0x3f) + 0x80) :: t)

/-- mobi_cp1252_to_utf8 (util.c).  Input is the byte string, `outsize` the
allocated output-buffer size.  On success the result carries the buffer
contents (converted bytes plus the terminating NUL the function writes) and
the value stored back into *outsize; `none` is MOBI_DATA_CORRUPT. -/
def mobi_cp1252_to_utf8 (input : List Nat) (outsize : Nat) :
    Option (List Nat × Nat) :=
  match cp1252Go input 0 outsize with
  | none => none
  | some payload => some (payload ++ [0], payload.length)

/-- The five CP1252 bytes without an assigned code point. -/
def cp1252Unassigned (b : Nat) : Prop :=
  b = 0x81 ∨ b = 0x8d ∨ b = 0x8f ∨ b = 0x90 ∨ b = 0x9d

instance (b : Nat) : Decidable (cp1252Unassigned b) := by
  unfold cp1252Unassigned; infer_instance

/-- Per-byte output mapping as the claim states it: bytes below 0x80 pass
through, 0x80..0x9F go through the fixed table (`none` on the unassigned
bytes), 0xA0..0xBF become 0xC2 plus the byte, 0xC0..0xFF become 0xC3 plus
the byte's low six bits with the high bit set. -/
def cp1252SpecByte (b : Nat) : Option (List Nat) :=
  if b < 0x80 then some [b]
  else if b < 0xa0 then
    if cp1252Unassigned b then none else some (cp1252RowBytes (b - 0x80))
  else if b < 0xc0 then some [0xc2, b]
  else some [0xc3, (b &&& 0x3f) + 0x80]

/-- Whole-string mapping as the claim states it: every byte is mapped by
cp1252SpecByte and the outputs are concatenated; any unassigned byte makes
the whole conversion fail. -/
def cp1252Spec : List Nat → Option (List Nat)
  | [] => some []
  | b :: rest =>
    match cp1252SpecByte b, cp1252Spec rest with
    | some e, some t => some (e ++ t)
    | _, _ => none

/-- Table of Mobipocket language-region codes (the `mobi_locale` array of
util.c): 99 language rows of up to 21 region strings.  Rows that the C file
leaves uninitialised between designated initialisers are empty lists, and a
NULL region entry is modelled below as the empty string, which no lookup can
match (the C code never reads a NULL entry on the inputs considered here). -/
def mobi_locale : List (List String) := [
  ["neutral"],
  ["ar", "ar-sa", "ar", "ar-eg", "ar", "ar-dz", "ar-ma", "ar-tn", "ar-om",
   "ar-ye", "ar-sy", "ar-jo", "ar-lb", "ar-kw", "ar-ae", "ar-bh", "ar-qa"],
  ["bg"],
  ["ca"],
  ["zh", "zh-tw", "zh-cn", "zh-hk", "zh-sg"],
  ["cs"],
  ["da"],
  ["de", "de-de", "de-ch", "de-at", "de-lu", "de-li"],
  ["el"],
  ["en", "en-us", "en-gb", "en-au", "en-ca", "en-nz", "en-ie", "en-za",
   "en-jm", "en", "en-bz", "en-tt", "en-zw", "en-ph"],
  ["es", "es-es", "es-mx", "es", "es-gt", "es-cr", "es-pa", "es-do",
   "es-ve", "es-co", "es-pe", "es-ar", "es-ec", "es-cl", "es-uy", "es-py",
   "es-bo", "es-sv", "es-hn", "es-ni", "es-pr"],
  ["fi"],
  ["fr", "fr-fr", "fr-be", "fr-ca", "fr-ch", "fr-lu", "fr-mc"],
  ["he"],
  ["hu"],
  ["is"],
  ["it", "it-it", "it-ch"],
  ["ja"],
  ["ko"],
  ["nl", "nl-nl", "nl-be"],
  ["no"],
  ["pl"],
  ["pt", "pt-br", "pt-pt"],
  ["rm"],
  ["ro"],
  ["ru"],
  ["hr"],
  ["sr", "sr", "sr", "sr"],
  ["sk"],
  ["sq"],
  ["sv", "sv-se", "sv-fi"],
  ["th"],
  ["tr"],
  ["ur"],
  ["id"],
  ["uk"],
  ["be"],
  ["sl"],
  ["et"],
  ["lv"],
  ["lt"],
  ["fa"],
  ["vi"],
  ["hy"],
  ["az"],
  ["eu"],
  ["sb"],
  ["mk"],
  ["sx"],
  ["ts"],
  ["tn"],
  [],
  ["xh"],
  ["zu"],
  ["af"],
  ["ka"],
  ["fo"],
  ["hi"],
  ["mt"],
  ["sz"],
  ["ga"],
  [],
  ["ms"],
  ["kk"],
  [],
  ["sw"],
  [],
  ["uz", "uz", "uz-uz"],
  ["tt"],
  ["bn"],
  ["pa"],
  ["gu"],
  ["or"],
  ["ta"],
  ["te"],
  ["kn"],
  ["ml"],
  ["as"],
  ["mr"],
  ["sa"],
  [],
  [],
  ["cy", "cy-gb"],
  ["gl", "gl-es"],
  [],
  [],
  [],
  ["x-kok"],
  [],
  [],
  [],
  [],
  [],
  [],
  [],
  [],
  [],
  ["ne"],
  ["fy"]]

/-- Number of entries in the mobi_locale array (MOBI_LANG_MAX). -/
def MOBI_LANG_MAX : Nat := 99

/-- Maximum number of entries in each language array (MOBI_REGION_MAX). -/
def MOBI_REGION_MAX : Nat := 21

/-- Region entry of the locale table; a missing (NULL) entry is the empty
string. -/
def localeEntry (lang region : Nat) : String :=
  (mobi_locale.getD lang []).getD region ""

/-- mobi_get_locale_string (util.c): language code is the low byte, region
code the next byte divided by 4; NULL (here `none`) out of bounds or on a
missing or empty table entry. -/
def mobi_get_locale_string (locale_number : Nat) : Option String :=
  let lang_code := locale_number &&& 0xff
  let region_code := (locale_number >>> 8) / 4
  if MOBI_LANG_MAX ≤ lang_code ∨ MOBI_REGION_MAX ≤ region_code then none
  else
    let s := localeEntry lang_code region_code
    if s = "" then none else some s

/-- tolower of ctype.h on the ASCII letters, identity elsewhere. -/
def toLowerC (c : Char) : Char :=
  if 'A' ≤ c ∧ c ≤ 'Z' then Char.ofNat (c.toNat + 32) else c

/-- Inner region loop of mobi_get_locale_number: first exact match of the
lowercased input in the row yields `(region * 4) << 8 | lang`; the bare
language code is returned when no region matches. -/
def localeRegionSearch (lower : List Char) (lang : Nat) : Nat :=
  match (List.range MOBI_REGION_MAX).find?
      (fun r => lower = (localeEntry lang r).toList) with
  | some r => ((r * 4) <<< 8) ||| lang
  | none => lang

/-- Outer language loop of mobi_get_locale_number: rows with a NULL head are
skipped; the first row whose head shares the first two characters with the
lowercased input is searched for an exact region match; 0 when no row
matches.  The C code lowercases the input inside the loop; the result is the
same on every iteration, so it is computed once here. -/
def localeLangSearch (lower : List Char) : Nat :=
  match (List.range MOBI_LANG_MAX).find?
      (fun l => localeEntry l 0 ≠ "" &&
        lower.take 2 = (localeEntry l 0).toList.take 2) with
  | some l => localeRegionSearch lower l
  | none => 0

/-- mobi_get_locale_number (util.c): 0 on a NULL or shorter-than-two-character
string, otherwise the table search over the lowercased input. -/
def mobi_get_locale_number (locale_string : String) : Nat :=
  if locale_string.length < 2 then 0
  else localeLangSearch (locale_string.toList.map toLowerC)

/-- mobi_get_fullname (util.c): copy min(len, *full_name_length) bytes from
Record 0 at *full_name_offset.  The result carries the status and the bytes
copied into the caller's buffer (before the terminating NUL). -/
def mobi_get_fullname (om : Option MOBIData') (len : Nat) :
    MOBI_RET × List Nat :=
  if len = 0 then (MOBI_PARAM_ERR, [])
  else
    match om with
    | none => (MOBI_INIT_FAILED, [])
    | some m =>
      let offset := mobi_get_kf8offset m
      let record0 := mobi_get_record_by_seqnumber m offset
      match m.mh, record0 with
      | some mh, some r0 =>
        match mh.full_name_offset, mh.full_name_length with
        | some fno, some fnl =>
          let size := min len fnl
          (MOBI_SUCCESS, (r0.data.drop fno).take size)
        | _, _ => (MOBI_INIT_FAILED, [])
      | _, _ => (MOBI_INIT_FAILED, [])

/-- Everything mobi_decompress_content does after its early guards: HUFF/CDIC
table setup, the per-record loop with trailer stripping and the three
decompressors, all implemented outside util.c (buffer.c, compression.c,
parse_rawml.c are not among the sources).  The claims under verification
return before this point, so it is a parameter: the argument is the document
and the output-buffer length (`none` in file-dump mode), the result the
status and the text bytes produced. -/
def MOBIDecompressLoop : Type :=
  MOBIData' → Option Nat → MOBI_RET × List Nat

/-- mobi_decompress_content (util.c): encrypted documents are rejected first,
then a missing Record-0 header or a zero text-record count is DATA_CORRUPT,
then the decompression loop runs. -/
def mobi_decompress_content (loop : MOBIDecompressLoop) (m : MOBIData')
    (len : Option Nat) : MOBI_RET × List Nat :=
  if mobi_is_encrypted (some m) then (MOBI_FILE_ENCRYPTED, [])
  else
    match m.rh with
    | none => (MOBI_DATA_CORRUPT, [])
    | some rh =>
      if rh.text_record_count = 0 then (MOBI_DATA_CORRUPT, [])
      else loop m len

/-- mobi_get_rawml (util.c): PARAM_ERR when the buffer is smaller than the
declared text length, otherwise decompress into the buffer.  The C function
dereferences m->rh without a null check; `none` marks that undefined
execution. -/
def mobi_get_rawml (loop : MOBIDecompressLoop) (m : MOBIData') (len : Nat) :
    Option (MOBI_RET × List Nat) :=
  match m.rh with
  | none => none
  | some rh =>
    if len < rh.text_length then some (MOBI_PARAM_ERR, [])
    else some (mobi_decompress_content loop m (some len))

/-- mobi_dump_rawml (util.c): FILE_NOT_FOUND on a NULL file, otherwise
decompress to the file; `hasFile` stands for the file argument. -/
def mobi_dump_rawml (loop : MOBIDecompressLoop) (m : MOBIData')
    (hasFile : Bool) : MOBI_RET :=
  if !hasFile then MOBI_FILE_NOT_FOUND
  else (mobi_decompress_content loop m none).1

/-- Search the conversion table for the row whose written bytes are exactly
the given two-byte UTF-8 sequence. -/
def cp1252RowOfPair (x y : Nat) : Option Nat :=
  (List.range 32).find? (fun i => cp1252RowBytes i = [x, y])

/-- Search the conversion table for the row whose written bytes are exactly
the given three-byte UTF-8 sequence. -/
def cp1252RowOfTriple (x y z : Nat) : Option Nat :=
  (List.range 32).find? (fun i => cp1252RowBytes i = [x, y, z])

/-- Modelled from the spec: one step of the reference UTF-8 to CP1252
decoder of spec section 8, which no source file implements.  It decodes one
UTF-8 sequence at the front of the list into a CP1252 byte and the
remaining input: an ASCII byte passes through, a 0xC2 lead returns its
continuation byte (code points 0xA0..0xBF), a 0xC3 lead returns its
continuation byte plus 0x40 (code points 0xC0..0xFF), and any other
multi-byte sequence must be a row of the fixed conversion table and decodes
to 0x80 plus the row index. -/
def utf8Step (l : List Nat) : Option (Nat × List Nat) :=
  match l with
  | [] => none
  | b :: rest =>
    if b < 0x80 then some (b, rest)
    else if b = 0xc2 then
      match rest with
      | [] => none
      | c :: rest2 => if 0xa0 ≤ c ∧ c < 0xc0 then some (c, rest2) else none
    else if b = 0xc3 then
      match rest with
      | [] => none
      | c :: rest2 =>
        if 0x80 ≤ c ∧ c < 0xc0 then some (c + 0x40, rest2) else none
    else if b < 0xe0 then
      match rest with
      | [] => none
      | c :: rest2 =>
        match cp1252RowOfPair b c with
        | some i => some (0x80 + i, rest2)
        | none => none
    else
      match rest with
      | c :: d :: rest2 =>
        match cp1252RowOfTriple b c d with
        | some i => some (0x80 + i, rest2)
        | none => none
      | _ => none

/-- Iterate the reference decoding step; the fuel only serves termination
and one unit per input byte is always enough, since a step consumes at
least one byte. -/
def utf8RefGo : Nat → List Nat → Option (List Nat)
  | _, [] => some []
  | 0, _ :: _ => none
  | fuel + 1, b :: rest =>
    match utf8Step (b :: rest) with
    | some p => (utf8RefGo fuel p.2).map (fun t => p.1 :: t)
    | none => none

/-- Modelled from the spec: the reference UTF-8 to CP1252 decoder of spec
section 8 (no source file implements it): repeatedly decode one UTF-8
sequence via utf8Step until the input is exhausted; malformed input is
`none`. -/
def utf8Ref (l : List Nat) : Option (List Nat) :=
  utf8RefGo l.length l

/-- First-occurrence condition on a locale-table position: the entry is
present, no earlier region of the same row holds the same string, and no
earlier row's head shares the entry's two-letter language code.  Exactly the
positions the two-stage search of mobi_get_locale_number can reach. -/
def localeFirstOccurrence (lang region : Nat) : Prop :=
  lang < MOBI_LANG_MAX ∧ region < MOBI_REGION_MAX ∧
  localeEntry lang region ≠ "" ∧
  (∀ r < region, localeEntry lang r ≠ localeEntry lang region) ∧
  (∀ l < lang, localeEntry l 0 ≠ "" →
    (localeEntry l 0).toList.take 2 ≠ (localeEntry lang region).toList.take 2)

instance (lang region : Nat) : Decidable (localeFirstOccurrence lang region) := by
  unfold localeFirstOccurrence; infer_instance

/-- A document with no loaded headers and an empty record list. -/
def emptyDoc : MOBIData' :=
  { use_kf8 := false, kf8_boundary_offset := MOBI_NOTSET, ph := none,
    rh := none, mh := none, eh := [], records := [] }

/-- A MOBI header with only a file version, a set fdst_index and no
fdst_section_count. -/
def fdstGapHeader : MOBIMobiHeader :=
  { text_encoding := none, version := some 8, full_name_offset := none,
    full_name_length := none, image_index := none, fdst_index := some 5,
    fdst_section_count := none, last_text_index := none, extra_flags := none }

/-- A KF8 document whose MOBI header carries fdst_index = 5 but no
fdst_section_count. -/
def fdstGapDoc : MOBIData' :=
  { emptyDoc with mh := some fdstGapHeader }

/-- A KF8 document whose MOBI header carries fdst_index = 5 and
fdst_section_count = 3. -/
def fdstGoodDoc : MOBIData' :=
  { emptyDoc with
    mh := some { fdstGapHeader with fdst_section_count := some 3 } }

/-- A document with one KF8-boundary EXTH record pointing (value 2, so
sequence number 1) at a record that starts with "BOUNDARY". -/
def hybridSampleDoc : MOBIData' :=
  { use_kf8 := true, kf8_boundary_offset := 1, ph := none, rh := none,
    mh := none, eh := [{ tag := 121, size := 1, data := [2] }],
    records := [{ offset := 0, size := 0, attributes := 0, uid := 0, data := [] },
                { offset := 0, size := 8, attributes := 0, uid := 2,
                  data := boundaryBytes }] }

/-- An encrypted Mobipocket document: PDB type BOOK / creator MOBI,
Record-0 encryption type 2, with a full name stored in record 0. -/
def encryptedDoc : MOBIData' :=
  { use_kf8 := false, kf8_boundary_offset := MOBI_NOTSET,
    ph := some { type := "BOOK", creator := "MOBI" },
    rh := some { compression_type := 1, text_length := 0,
                 text_record_count := 1, text_record_size := 4096,
                 encryption_type := 2, unknown1 := 0 },
    mh := some { text_encoding := some 1252, version := some 6,
                 full_name_offset := some 2, full_name_length := some 3,
                 image_index := none, fdst_index := none,
                 fdst_section_count := none, last_text_index := none,
                 extra_flags := none },
    eh := [],
    records := [{ offset := 0, size := 5, attributes := 0, uid := 0,
                  data := [0, 0, 65, 66, 67] }] }

/-- A decompression loop that produces nothing; the claims under
verification return before any loop can run, so any loop witnesses them. -/
def loopNoop : MOBIDecompressLoop := fun _ _ => (MOBI_SUCCESS, [])

/-- C9 helper: the walk of mobi_delete_record_by_seqnumber always reports
SUCCESS and removes the num-th element when there is one. -/
theorem deleteRecGo_eq (l : List MOBIPdbRecord) (num : Nat) :
    deleteRecGo l num =
      (MOBI_SUCCESS, if num < l.length then l.eraseIdx num else l) := by
  induction l generalizing num with
  | nil => simp [deleteRecGo]
  | cons c rest ih =>
    cases num with
    | zero => simp [deleteRecGo]
    | succ n =>
      simp only [deleteRecGo, ih n, List.length_cons, List.eraseIdx_cons_succ]
      by_cases h : n < rest.length
      · simp [h, Nat.succ_lt_succ h]
      · have : ¬ n + 1 < rest.length + 1 := by omega
        simp [h, this]

/-- Claim C9 (amended: the record list must be non-empty; an empty list is
MOBI_INIT_FAILED): deleting a sequence number at or past the end succeeds
and leaves the record list unchanged; deleting an in-range sequence number
succeeds and removes exactly that record, preserving all others in order. -/
theorem C9_delete_record_by_seqnumber (m : MOBIData') (num : Nat)
    (hne : m.records ≠ []) :
    (m.records.length ≤ num →
      mobi_delete_record_by_seqnumber (some m) num = (MOBI_SUCCESS, some m)) ∧
    (num < m.records.length →
      mobi_delete_record_by_seqnumber (some m) num =
        (MOBI_SUCCESS, some { m with records := m.records.eraseIdx num })) := by
  constructor
  · intro hge
    rcases hrec : m.records with _ | ⟨a, rest⟩
    · exact absurd hrec hne
    · have hnum : ¬ num < m.records.length := by omega
      simp only [mobi_delete_record_by_seqnumber, hrec]
      rw [← hrec, deleteRecGo_eq, if_neg hnum]
  · intro hlt
    rcases hrec : m.records with _ | ⟨a, rest⟩
    · exact absurd hrec hne
    · simp only [mobi_delete_record_by_seqnumber, hrec]
      rw [← hrec, deleteRecGo_eq, if_pos hlt]

/-- Claim C9 witness: deleting record 1 of a two-record document. -/
theorem C9_witness :
    mobi_delete_record_by_seqnumber (some hybridSampleDoc) 5 =
      (MOBI_SUCCESS, some hybridSampleDoc) ∧
    mobi_delete_record_by_seqnumber (some hybridSampleDoc) 0 =
      (MOBI_SUCCESS,
        some { hybridSampleDoc with
               records := hybridSampleDoc.records.eraseIdx 0 }) :=
  ⟨(C9_delete_record_by_seqnumber hybridSampleDoc 5 (by decide)).1 (by decide),
   (C9_delete_record_by_seqnumber hybridSampleDoc 0 (by decide)).2 (by decide)⟩

/-- Claim C9 counterexample: on an empty record list the function returns
MOBI_INIT_FAILED, not MOBI_SUCCESS as the claim states for n >= k = 0. -/
theorem C9_counterexample :
    mobi_delete_record_by_seqnumber (some emptyDoc) 0 =
      (MOBI_INIT_FAILED, some emptyDoc) ∧
    MOBI_INIT_FAILED ≠ MOBI_SUCCESS :=
  ⟨rfl, by decide⟩

/-- Claim C7: selecting the KF8 half twice equals selecting it once, and
swapping the halves of a hybrid document twice restores both halves'
Record-0 header, MOBI header and EXTH list to their original positions. -/
theorem C7_parse_kf8_swap :
    (∀ om : Option MOBIData',
      mobi_parse_kf8 (mobi_parse_kf8 om).2 = mobi_parse_kf8 om) ∧
    (∀ h : MOBIHybrid, (mobi_swap_mobidata (mobi_swap_mobidata h).2).2 = h) := by
  constructor
  · intro om
    rcases om with _ | m <;> rfl
  · intro h
    rcases h with ⟨⟨_, _, _, _, _, _, _⟩, ⟨_, _, _, _, _, _, _⟩⟩
    rfl

/-- Claim C10: mobi_get_encoding returns the UTF-8 code exactly when the
MOBI header and its text_encoding field are present with value 65001, and
in every other case (null document, missing header, absent field, other
value) returns the CP1252 code. -/
theorem C10_get_encoding (om : Option MOBIData') :
    (mobi_get_encoding om = MOBI_UTF8 ↔
      ∃ m mh, om = some m ∧ m.mh = some mh ∧
        mh.text_encoding = some MOBI_UTF8) ∧
    (mobi_get_encoding om = MOBI_UTF8 ∨ mobi_get_encoding om = MOBI_CP1252) := by
  have hne : MOBI_CP1252 ≠ MOBI_UTF8 := by decide
  rcases om with _ | m
  · simp [mobi_get_encoding, hne]
  rcases hmh : m.mh with _ | mh
  · simp [mobi_get_encoding, hmh, hne]
  rcases hte : mh.text_encoding with _ | te
  · simp [mobi_get_encoding, hmh, hte, hne]
  by_cases h : te = MOBI_UTF8
  · subst h
    have hval : mobi_get_encoding (some m) = MOBI_UTF8 := by
      simp [mobi_get_encoding, hmh, hte]
    exact ⟨⟨fun _ => ⟨m, mh, rfl, hmh, hte⟩, fun _ => hval⟩, Or.inl hval⟩
  · have hval : mobi_get_encoding (some m) = MOBI_CP1252 := by
      simp [mobi_get_encoding, hmh, hte, h]
    rw [hval]
    refine ⟨⟨fun hc => absurd hc hne, ?_⟩, Or.inr rfl⟩
    rintro ⟨m', mh', hm', hmh', hte'⟩
    cases Option.some.inj hm'
    rw [hmh] at hmh'
    cases Option.some.inj hmh'
    rw [hte] at hte'
    exact absurd (Option.some.inj hte') h

/-- Claim C8: with a loaded Record-0 header and an output-buffer length
smaller than the declared text length, mobi_get_rawml returns MOBI_PARAM_ERR
and performs no decompression (the result is the same for every
decompression loop and no output byte is produced). -/
theorem C8_get_rawml_small_buffer (loop : MOBIDecompressLoop)
    (m : MOBIData') (rh : MOBIRecord0Header) (len : Nat)
    (hrh : m.rh = some rh) (hlen : len < rh.text_length) :
    mobi_get_rawml loop m len = some (MOBI_PARAM_ERR, []) := by
  simp [mobi_get_rawml, hrh, hlen]

/-- Claim C8 witness: a one-byte buffer for a five-byte text. -/
theorem C8_witness :
    mobi_get_rawml loopNoop
      { encryptedDoc with
        rh := some { compression_type := 1, text_length := 5,
                     text_record_count := 1, text_record_size := 4096,
                     encryption_type := 0, unknown1 := 0 } } 1 =
      some (MOBI_PARAM_ERR, []) :=
  C8_get_rawml_small_buffer loopNoop _ _ 1 rfl (by decide)

/-- Claim C2: on a Mobipocket document (PDB type BOOK, creator MOBI) whose
Record-0 encryption type is 1 or 2, text decompression through
mobi_get_rawml (with an adequate buffer) or mobi_dump_rawml returns
MOBI_FILE_ENCRYPTED for every decompression loop, while mobi_get_fullname
still returns MOBI_SUCCESS with the full name whenever the name fields and
Record 0 are present. -/
theorem C2_encrypted_rejected_metadata_ok (loop : MOBIDecompressLoop)
    (m : MOBIData') (ph : MOBIPdbHeader) (rh : MOBIRecord0Header)
    (len flen : Nat)
    (hph : m.ph = some ph) (htype : ph.type = "BOOK")
    (hcreator : ph.creator = "MOBI") (hrh : m.rh = some rh)
    (henc : rh.encryption_type = RECORD0_OLD_ENCRYPTION ∨
      rh.encryption_type = RECORD0_MOBI_ENCRYPTION)
    (hlen : rh.text_length ≤ len) :
    mobi_get_rawml loop m len = some (MOBI_FILE_ENCRYPTED, []) ∧
    mobi_dump_rawml loop m true = MOBI_FILE_ENCRYPTED ∧
    (∀ mh fno fnl r0, 0 < flen → m.mh = some mh →
      mh.full_name_offset = some fno → mh.full_name_length = some fnl →
      mobi_get_record_by_seqnumber m (mobi_get_kf8offset m) = some r0 →
      mobi_get_fullname (some m) flen =
        (MOBI_SUCCESS, (r0.data.drop fno).take (min flen fnl))) := by
  have hencB : mobi_is_encrypted (some m) = true := by
    simp only [mobi_is_encrypted, mobi_is_mobipocket, hph, hrh]
    rcases henc with h | h <;> simp [htype, hcreator, h]
  have hnotlt : ¬ len < rh.text_length := by omega
  refine ⟨?_, ?_, ?_⟩
  · simp [mobi_get_rawml, hrh, hnotlt, mobi_decompress_content, hencB]
  · simp [mobi_dump_rawml, mobi_decompress_content, hencB]
  · intro mh fno fnl r0 hflen hmh hfno hfnl hr0
    have hflen0 : flen ≠ 0 := by omega
    simp [mobi_get_fullname, hflen0, hmh, hr0, hfno, hfnl]

/-- Claim C2 witness: the encrypted sample document. -/
theorem C2_witness :
    mobi_get_rawml loopNoop encryptedDoc 0 = some (MOBI_FILE_ENCRYPTED, []) ∧
    mobi_dump_rawml loopNoop encryptedDoc true = MOBI_FILE_ENCRYPTED ∧
    mobi_get_fullname (some encryptedDoc) 16 = (MOBI_SUCCESS, [65, 66, 67]) := by
  have h := C2_encrypted_rejected_metadata_ok loopNoop encryptedDoc
    { type := "BOOK", creator := "MOBI" }
    { compression_type := 1, text_length := 0, text_record_count := 1,
      text_record_size := 4096, encryption_type := 2, unknown1 := 0 }
    0 16 rfl rfl rfl rfl (Or.inr rfl) (by decide)
  refine ⟨h.1, h.2.1, ?_⟩
  have h3 := h.2.2
    { text_encoding := some 1252, version := some 6,
      full_name_offset := some 2, full_name_length := some 3,
      image_index := none, fdst_index := none, fdst_section_count := none,
      last_text_index := none, extra_flags := none }
    2 3 { offset := 0, size := 5, attributes := 0, uid := 0,
          data := [0, 0, 65, 66, 67] }
    (by decide) rfl rfl rfl rfl
  rw [h3]
  rfl

/-- Claim C4 (amended): the implication holds when additionally the
fdst_section_count field is present and greater than 1, last_text_index is
present (with its uint16 range) whenever fdst_index is missing or not set,
and fdst_index + KF8 offset does not collide with the sentinel; the
counterexample below shows the unamended claim fails when
fdst_section_count is absent. -/
theorem C4_exists_fdst_record_number (m : MOBIData') (mh : MOBIMobiHeader)
    (c : Nat) (hmh : m.mh = some mh)
    (hex : mobi_exists_fdst (some m) = true)
    (hc : mh.fdst_section_count = some c) (hc1 : 1 < c)
    (hsum : ∀ fi, mh.fdst_index = some fi → fi ≠ MOBI_NOTSET →
      fi + mobi_get_kf8offset m ≠ MOBI_NOTSET)
    (hlast : ∀ lt, mh.last_text_index = some lt → lt < 65536)
    (hlastPresent : (mh.fdst_index = none ∨ mh.fdst_index = some MOBI_NOTSET) →
      mh.last_text_index ≠ none) :
    ∃ k, mobi_get_fdst_record_number m = some k ∧ k ≠ MOBI_NOTSET := by
  have hcountOk :
      (match mh.fdst_section_count with
       | some c => decide (1 < c)
       | none => false) = true := by
    rw [hc]; simpa using hc1
  rcases hfi : mh.fdst_index with _ | fi
  · have hlt : mh.last_text_index ≠ none := hlastPresent (Or.inl hfi)
    rcases hltv : mh.last_text_index with _ | lt
    · exact absurd hltv hlt
    refine ⟨lt, ?_, ?_⟩
    · simp [mobi_get_fdst_record_number, hmh, hfi, hcountOk, hltv]
    · have := hlast lt hltv
      unfold MOBI_NOTSET
      omega
  · by_cases hset : fi = MOBI_NOTSET
    · subst hset
      have hlt : mh.last_text_index ≠ none := hlastPresent (Or.inr hfi)
      rcases hltv : mh.last_text_index with _ | lt
      · exact absurd hltv hlt
      refine ⟨lt, ?_, ?_⟩
      · simp [mobi_get_fdst_record_number, hmh, hfi, hcountOk, hltv]
      · have := hlast lt hltv
        unfold MOBI_NOTSET
        omega
    · refine ⟨fi + mobi_get_kf8offset m, ?_, hsum fi hfi hset⟩
      simp [mobi_get_fdst_record_number, hmh, hfi, hcountOk, hset]


/-- Claim C4 witness: a KF8 document with fdst_index 5 and section count 3. -/
theorem C4_witness :
    ∃ k, mobi_get_fdst_record_number fdstGoodDoc = some k ∧
      k ≠ MOBI_NOTSET := by
  refine C4_exists_fdst_record_number fdstGoodDoc
    { fdstGapHeader with fdst_section_count := some 3 } 3 rfl (by decide)
    rfl (by decide) ?_ ?_ ?_
  · intro fi hfi _
    have h5 : some 5 = some fi := hfi
    cases Option.some.inj h5
    decide
  · intro lt hlt
    simp [fdstGapHeader] at hlt
  · intro h _
    simp [fdstGapHeader, MOBI_NOTSET] at h

/-- Claim C4 counterexample: a version-8 document with a set fdst_index but
no fdst_section_count satisfies mobi_exists_fdst, yet
mobi_get_fdst_record_number falls through to MOBI_NOTSET. -/
theorem C4_counterexample :
    mobi_exists_fdst (some fdstGapDoc) = true ∧
    mobi_get_fdst_record_number fdstGapDoc = some MOBI_NOTSET := by
  constructor <;> decide

/-- Bound on the EXTH big-endian accumulator: starting below 2^32 with at
most four bytes below 256 keeps the value below 2^32. -/
theorem exthValGo_lt (i : Nat) (data : List Nat) (val : Nat)
    (hi : i ≤ 4) (hdata : ∀ b ∈ data, b < 256) (hval : val < 2 ^ 32) :
    exthValGo i data val < 2 ^ 32 := by
  induction i generalizing data val with
  | zero => simpa [exthValGo] using hval
  | succ j ih =>
    rcases data with _ | ⟨b, rest⟩
    · simpa [exthValGo] using hval
    · have hb : b < 256 := hdata b (by simp)
      have hshift : b <<< (j * 8) < 2 ^ 32 := by
        rw [Nat.shiftLeft_eq]
        have hpow : 2 ^ (j * 8) ≤ 2 ^ 24 :=
          Nat.pow_le_pow_right (by omega) (by omega)
        calc b * 2 ^ (j * 8) ≤ 255 * 2 ^ 24 :=
              Nat.mul_le_mul (by omega) hpow
          _ < 2 ^ 32 := by norm_num
      exact ih rest (val ||| (b <<< (j * 8))) (by omega)
        (fun x hx => hdata x (by simp [hx]))
        (Nat.or_lt_two_pow hval hshift)

/-- Bound on mobi_decode_exthvalue for byte payloads. -/
theorem mobi_decode_exthvalue_lt (data : List Nat) (size : Nat)
    (hdata : ∀ b ∈ data, b < 256) :
    mobi_decode_exthvalue data size < 2 ^ 32 :=
  exthValGo_lt (min size 4) data 0 (Nat.min_le_right _ _) hdata (by norm_num)

/-- Claim C3: mobi_get_kf8boundary_seqnumber returns r exactly when the
first EXTH tag-121 record is present, its big-endian value minus one equals
r, and the record with sequence number r starts with the ASCII bytes of
"BOUNDARY"; in every other case it returns MOBI_NOTSET.  mobi_is_hybrid is
true exactly when the cached KF8 boundary offset is not MOBI_NOTSET. -/
theorem C3_kf8boundary_seqnumber (m : MOBIData') (r : Nat)
    (hbytes : ∀ e ∈ m.eh, ∀ b ∈ e.data, b < 256)
    (hreccount : m.records.length < 2 ^ 32)
    (hr : r ≠ MOBI_NOTSET) :
    (mobi_get_kf8boundary_seqnumber (some m) = r ↔
      ∃ e, mobi_get_exthrecord_by_tag m EXTH_KF8BOUNDARY = some e ∧
        1 ≤ mobi_decode_exthvalue e.data e.size ∧
        r = mobi_decode_exthvalue e.data e.size - 1 ∧
        ∃ record, mobi_get_record_by_seqnumber m r = some record ∧
          record.data.take 8 = boundaryBytes) ∧
    (mobi_is_hybrid (some m) = true ↔ m.kf8_boundary_offset ≠ MOBI_NOTSET) := by
  constructor
  · rcases hfind : mobi_get_exthrecord_by_tag m EXTH_KF8BOUNDARY with _ | e
    · rw [show mobi_get_kf8boundary_seqnumber (some m) = MOBI_NOTSET from by
        simp [mobi_get_kf8boundary_seqnumber, hfind]]
      constructor
      · intro h; exact absurd h.symm hr
      · rintro ⟨e', he', _⟩
        cases he'
    · have he : e ∈ m.eh := List.mem_of_find?_eq_some hfind
      have hv : mobi_decode_exthvalue e.data e.size < 2 ^ 32 :=
        mobi_decode_exthvalue_lt e.data e.size (hbytes e he)
      set v := mobi_decode_exthvalue e.data e.size with hvdef
      have hvlit : v < 4294967296 := by
        have := hv
        norm_num at this
        exact this
      have hreclit : m.records.length < 4294967296 := by
        have := hreccount
        norm_num at this
        exact this
      by_cases hv0 : v = 0
      · have hrNOT : (v + 4294967295) % 4294967296 = MOBI_NOTSET := by
          unfold MOBI_NOTSET; omega
        have hnone : mobi_get_record_by_seqnumber m MOBI_NOTSET = none := by
          unfold mobi_get_record_by_seqnumber
          rw [List.get?_eq_none]
          unfold MOBI_NOTSET
          omega
        rw [show mobi_get_kf8boundary_seqnumber (some m) = MOBI_NOTSET from by
          simp only [mobi_get_kf8boundary_seqnumber, hfind, ← hvdef, hrNOT,
            hnone]]
        constructor
        · intro h; exact absurd h.symm hr
        · rintro ⟨e', he', h1, _⟩
          cases Option.some.inj he'
          rw [← hvdef] at h1
          exact absurd h1 (by omega)
      · have hwrap : (v + 4294967295) % 4294967296 = v - 1 := by omega
        rcases hrec : mobi_get_record_by_seqnumber m (v - 1) with _ | record
        · rw [show mobi_get_kf8boundary_seqnumber (some m) = MOBI_NOTSET from by
            simp only [mobi_get_kf8boundary_seqnumber, hfind, ← hvdef, hwrap,
              hrec]]
          constructor
          · intro h; exact absurd h.symm hr
          · rintro ⟨e', he', h1, hre, record', hrec', _⟩
            cases Option.some.inj he'
            rw [← hvdef] at h1 hre
            have hrv : r = v - 1 := hre
            rw [hrv, hrec] at hrec'
            cases hrec'
        · by_cases hbd : record.data.take 8 = boundaryBytes
          · rw [show mobi_get_kf8boundary_seqnumber (some m) = v - 1 from by
              simp only [mobi_get_kf8boundary_seqnumber, hfind, ← hvdef, hwrap,
                hrec, if_pos hbd]]
            constructor
            · intro h
              refine ⟨e, rfl, by omega, by rw [← hvdef]; omega, record, ?_, hbd⟩
              rw [h] at hrec
              exact hrec
            · rintro ⟨e', he', h1, hre, _⟩
              cases Option.some.inj he'
              rw [← hvdef] at hre
              omega
          · rw [show mobi_get_kf8boundary_seqnumber (some m) = MOBI_NOTSET from by
              simp only [mobi_get_kf8boundary_seqnumber, hfind, ← hvdef, hwrap,
                hrec, if_neg hbd]]
            constructor
            · intro h; exact absurd h.symm hr
            · rintro ⟨e', he', h1, hre, record', hrec', hbd'⟩
              cases Option.some.inj he'
              rw [← hvdef] at hre
              have hrv : r = v - 1 := hre
              rw [hrv, hrec] at hrec'
              cases Option.some.inj hrec'
              exact absurd hbd' hbd
  · simp [mobi_is_hybrid]

/-- Claim C3 witness: the sample hybrid document, whose EXTH tag 121 decodes
to 2 and whose record 1 starts with "BOUNDARY". -/
theorem C3_witness :
    mobi_get_kf8boundary_seqnumber (some hybridSampleDoc) = 1 := by
  have h := C3_kf8boundary_seqnumber hybridSampleDoc 1 (by decide) (by decide)
    (by decide)
  exact h.1.mpr ⟨{ tag := 121, size := 1, data := [2] }, by decide, by decide,
    by decide,
    { offset := 0, size := 8, attributes := 0, uid := 2, data := boundaryBytes },
    by decide, by decide⟩

/-- Unfolding lemma for the per-string claim mapping. -/
theorem cp1252Spec_cons (b : Nat) (l : List Nat) :
    cp1252Spec (b :: l) =
      match cp1252SpecByte b, cp1252Spec l with
      | some e, some t => some (e ++ t)
      | _, _ => none := rfl

/-- A conversion-table row is empty exactly on the five unassigned bytes. -/
theorem cp1252_row_empty_iff : ∀ b < 0xa0, 0x80 ≤ b →
    (cp1252RowBytes (b - 0x80) = [] ↔ cp1252Unassigned b) := by decide

/-- A conversion-table row writes at most three bytes. -/
theorem cp1252_row_length_le : ∀ b < 0xa0, 0x80 ≤ b →
    (cp1252RowBytes (b - 0x80)).length ≤ 3 := by decide

/-- The conversion loop agrees with the claim mapping of the input up to the
first NUL byte whenever the buffer has room for three bytes per input byte. -/
theorem cp1252Go_eq_spec (input : List Nat) :
    ∀ pos outlen : Nat, pos + 3 * input.length < outlen →
      cp1252Go input pos outlen =
        cp1252Spec (input.takeWhile (fun b => b ≠ 0)) := by
  induction input with
  | nil => intro pos outlen _; rfl
  | cons b rest ih =>
    intro pos outlen h
    have hlen : pos + 3 * rest.length + 3 < outlen := by
      simp only [List.length_cons] at h; omega
    have hnp : ¬ outlen ≤ pos := by omega
    by_cases hb0 : b = 0
    · subst hb0
      rw [show cp1252Go (0 :: rest) pos outlen = some [] from by
        simp [cp1252Go]]
      rw [show List.takeWhile (fun b => b ≠ 0) ((0 : Nat) :: rest) = [] from by
        simp [List.takeWhile_cons]]
      rfl
    · rw [show List.takeWhile (fun x => x ≠ 0) (b :: rest)
            = b :: List.takeWhile (fun x => x ≠ 0) rest from by
        simp [List.takeWhile_cons, hb0]]
      by_cases h80 : b < 0x80
      · rw [show cp1252Go (b :: rest) pos outlen
              = (cp1252Go rest (pos + 1) outlen).map (fun t => b :: t) from by
          simp [cp1252Go, hb0, hnp, h80]]
        rw [ih (pos + 1) outlen (by omega), cp1252Spec_cons]
        rw [show cp1252SpecByte b = some [b] from by
          simp [cp1252SpecByte, h80]]
        cases cp1252Spec (List.takeWhile (fun x => x ≠ 0) rest) <;> simp
      · by_cases ha0 : b < 0xa0
        · have h80le : 0x80 ≤ b := by omega
          by_cases hun : cp1252Unassigned b
          · have hempty : cp1252RowBytes (b - 0x80) = [] :=
              (cp1252_row_empty_iff b ha0 h80le).mpr hun
            rw [show cp1252Go (b :: rest) pos outlen = none from by
              simp [cp1252Go, hb0, hnp, h80, ha0, hempty]]
            rw [cp1252Spec_cons]
            rw [show cp1252SpecByte b = none from by
              simp [cp1252SpecByte, h80, ha0, hun]]
          · have hne : cp1252RowBytes (b - 0x80) ≠ [] := fun hE =>
              hun ((cp1252_row_empty_iff b ha0 h80le).mp hE)
            have hlen3 : (cp1252RowBytes (b - 0x80)).length ≤ 3 :=
              cp1252_row_length_le b ha0 h80le
            rw [show cp1252Go (b :: rest) pos outlen
                  = (cp1252Go rest (pos + (cp1252RowBytes (b - 0x80)).length)
                      outlen).map
                      (fun t => cp1252RowBytes (b - 0x80) ++ t) from by
              simp [cp1252Go, hb0, hnp, h80, ha0, hne]]
            rw [ih _ outlen (by omega), cp1252Spec_cons]
            rw [show cp1252SpecByte b = some (cp1252RowBytes (b - 0x80)) from by
              simp [cp1252SpecByte, h80, ha0, hun]]
            cases cp1252Spec (List.takeWhile (fun x => x ≠ 0) rest) <;> simp
        · by_cases hc0 : b < 0xc0
          · rw [show cp1252Go (b :: rest) pos outlen
                  = (cp1252Go rest (pos + 2) outlen).map
                      (fun t => 0xc2 :: b :: t) from by
              simp [cp1252Go, hb0, hnp, h80, ha0, hc0]]
            rw [ih _ outlen (by omega), cp1252Spec_cons]
            rw [show cp1252SpecByte b = some [0xc2, b] from by
              simp [cp1252SpecByte, h80, ha0, hc0]]
            cases cp1252Spec (List.takeWhile (fun x => x ≠ 0) rest) <;> simp
          · rw [show cp1252Go (b :: rest) pos outlen
                  = (cp1252Go rest (pos + 2) outlen).map
                      (fun t => 0xc3 :: ((b &&& 0x3f) + 0x80) :: t) from by
              simp [cp1252Go, hb0, hnp, h80, ha0, hc0]]
            rw [ih _ outlen (by omega), cp1252Spec_cons]
            rw [show cp1252SpecByte b = some [0xc3, (b &&& 0x3f) + 0x80] from by
              simp [cp1252SpecByte, h80, ha0, hc0]]
            cases cp1252Spec (List.takeWhile (fun x => x ≠ 0) rest) <;> simp

/-- Claim C1 (amended: the function maps each input byte before the first
NUL; conversion stops successfully at a 0x00 input byte): with an output
buffer of size three times the input length plus one, mobi_cp1252_to_utf8
computes exactly the claim's per-byte mapping of the input's pre-NUL
segment, NUL-terminates the output, and sets *outsize to the number of
bytes written; an unassigned 0x80..0x9F byte in that segment gives
MOBI_DATA_CORRUPT. -/
theorem C1_cp1252_to_utf8 (input : List Nat) (hbytes : ∀ b ∈ input, b < 256) :
    mobi_cp1252_to_utf8 input (3 * input.length + 1) =
      (cp1252Spec (input.takeWhile (fun b => b ≠ 0))).map
        (fun payload => (payload ++ [0], payload.length)) := by
  unfold mobi_cp1252_to_utf8
  rw [cp1252Go_eq_spec input 0 (3 * input.length + 1) (by omega)]
  cases cp1252Spec (input.takeWhile fun b => b ≠ 0) <;> rfl

/-- Claim C1 witness: converting the bytes "Hé" (0x48 0xE9). -/
theorem C1_witness :
    (∀ b ∈ [72, 233], b < 256) ∧
    mobi_cp1252_to_utf8 [72, 233] (3 * [72, 233].length + 1) =
      some ([72, 0xc3, 0xa9, 0], 3) :=
  ⟨by decide, by
    rw [C1_cp1252_to_utf8 [72, 233] (by decide)]
    decide⟩

/-- Claim C1 counterexample: on input [0x41, 0x00, 0x42] with a 10-byte
buffer the function stops at the NUL and reports one output byte, while the
claim's per-byte mapping (NUL copied unchanged, then 0x42) would give three
output bytes. -/
theorem C1_counterexample :
    mobi_cp1252_to_utf8 [65, 0, 66] 10 = some ([65, 0], 1) ∧
    cp1252Spec [65, 0, 66] = some [65, 0, 66] := by decide


/-- Step lemma: an ASCII byte decodes to itself. -/
theorem utf8Step_ascii (b : Nat) (h : b < 0x80) (l : List Nat) :
    utf8Step (b :: l) = some (b, l) := by
  simp [utf8Step, h]

/-- Step lemma: a 0xC2 sequence decodes to its continuation byte. -/
theorem utf8Step_c2 (c : Nat) (h1 : 0xa0 ≤ c) (h2 : c < 0xc0) (l : List Nat) :
    utf8Step (0xc2 :: c :: l) = some (c, l) := by
  simp [utf8Step, h1, h2]

/-- Step lemma: a 0xC3 sequence decodes to its continuation byte plus
0x40. -/
theorem utf8Step_c3 (c : Nat) (h1 : 0x80 ≤ c) (h2 : c < 0xc0) (l : List Nat) :
    utf8Step (0xc3 :: c :: l) = some (c + 0x40, l) := by
  simp [utf8Step, h1, h2]

/-- Step lemma: a two-byte table sequence decodes through the pair lookup. -/
theorem utf8Step_pair (x y i : Nat) (h1 : ¬ x < 0x80) (h2 : x ≠ 0xc2)
    (h3 : x ≠ 0xc3) (h4 : x < 0xe0) (hfind : cp1252RowOfPair x y = some i)
    (l : List Nat) :
    utf8Step (x :: y :: l) = some (0x80 + i, l) := by
  simp [utf8Step, h1, h2, h3, h4, hfind]

/-- Step lemma: a three-byte table sequence decodes through the triple
lookup. -/
theorem utf8Step_triple (x y z i : Nat) (h1 : ¬ x < 0x80) (h2 : x ≠ 0xc2)
    (h3 : x ≠ 0xc3) (h4 : ¬ x < 0xe0)
    (hfind : cp1252RowOfTriple x y z = some i) (l : List Nat) :
    utf8Step (x :: y :: z :: l) = some (0x80 + i, l) := by
  simp [utf8Step, h1, h2, h3, h4, hfind]

/-- Shape of every non-empty conversion-table row: a two-byte row has a lead
in 0xC4..0xDF and is found by the pair lookup at its own index, a three-byte
row has a lead of at least 0xE0 and is found by the triple lookup at its own
index. -/
theorem cp1252_row_shape : ∀ j < 32, cp1252RowBytes j = [] ∨
    (¬ (cp1252RowBytes j).getD 0 0 < 0x80 ∧
     (cp1252RowBytes j).getD 0 0 ≠ 0xc2 ∧
     (cp1252RowBytes j).getD 0 0 ≠ 0xc3 ∧
     (((cp1252RowBytes j).length = 2 ∧
       (cp1252RowBytes j).getD 0 0 < 0xe0 ∧
       cp1252RowOfPair ((cp1252RowBytes j).getD 0 0)
         ((cp1252RowBytes j).getD 1 0) = some j) ∨
      ((cp1252RowBytes j).length = 3 ∧
       ¬ (cp1252RowBytes j).getD 0 0 < 0xe0 ∧
       cp1252RowOfTriple ((cp1252RowBytes j).getD 0 0)
         ((cp1252RowBytes j).getD 1 0)
         ((cp1252RowBytes j).getD 2 0) = some j))) := by
  decide

/-- The decoding step inverts a conversion-table row in front of any tail:
the row decodes to 0x80 plus its index. -/
theorem utf8Step_row (i : Nat) (hi : i < 32) (hne : cp1252RowBytes i ≠ [])
    (l : List Nat) :
    utf8Step (cp1252RowBytes i ++ l) = some (0x80 + i, l) := by
  rcases cp1252_row_shape i hi with hE | ⟨h1, h2, h3, hP | hT⟩
  · exact absurd hE hne
  · obtain ⟨hlen, hlt, hfind⟩ := hP
    rcases hrow : cp1252RowBytes i with _ | ⟨x, rest⟩
    · exact absurd hrow hne
    rcases rest with _ | ⟨y, rest2⟩
    · rw [hrow] at hlen; simp at hlen
    rcases rest2 with _ | ⟨z, rest3⟩
    · rw [hrow] at h1 h2 h3 hlt hfind
      simp only [List.getD_cons_zero, List.getD_cons_succ] at h1 h2 h3 hlt hfind
      exact utf8Step_pair x y i h1 h2 h3 hlt hfind l
    · rw [hrow] at hlen; simp at hlen
  · obtain ⟨hlen, hge, hfind⟩ := hT
    rcases hrow : cp1252RowBytes i with _ | ⟨x, rest⟩
    · exact absurd hrow hne
    rcases rest with _ | ⟨y, rest2⟩
    · rw [hrow] at hlen; simp at hlen
    rcases rest2 with _ | ⟨z, rest3⟩
    · rw [hrow] at hlen; simp at hlen
    rcases rest3 with _ | ⟨w, rest4⟩
    · rw [hrow] at h1 h2 h3 hge hfind
      simp only [List.getD_cons_zero, List.getD_cons_succ] at h1 h2 h3 hge hfind
      exact utf8Step_triple x y z i h1 h2 h3 hge hfind l
    · rw [hrow] at hlen; simp at hlen

/-- The decoding step inverts the claim's per-byte encoding in front of any
tail, for assigned bytes of the CP1252 range. -/
theorem utf8Step_specByte (b : Nat) (hb : b < 0x100)
    (hun : ¬ cp1252Unassigned b) (e : List Nat)
    (he : cp1252SpecByte b = some e) (l : List Nat) :
    utf8Step (e ++ l) = some (b, l) ∧ 1 ≤ e.length := by
  by_cases h80 : b < 0x80
  · have hE : cp1252SpecByte b = some [b] := by simp [cp1252SpecByte, h80]
    rw [hE] at he
    cases Option.some.inj he
    exact ⟨utf8Step_ascii b h80 l, by simp⟩
  · by_cases ha0 : b < 0xa0
    · have hE : cp1252SpecByte b = some (cp1252RowBytes (b - 0x80)) := by
        simp [cp1252SpecByte, h80, ha0, hun]
      rw [hE] at he
      cases Option.some.inj he
      have hne : cp1252RowBytes (b - 0x80) ≠ [] := fun hEm =>
        hun ((cp1252_row_empty_iff b ha0 (by omega)).mp hEm)
      have hstep := utf8Step_row (b - 0x80) (by omega) hne l
      have hb80 : 0x80 + (b - 0x80) = b := by omega
      rw [hb80] at hstep
      refine ⟨hstep, ?_⟩
      rcases hE2 : cp1252RowBytes (b - 0x80) with _ | _
      · exact absurd hE2 hne
      · simp
    · by_cases hc0 : b < 0xc0
      · have hE : cp1252SpecByte b = some [0xc2, b] := by
          simp [cp1252SpecByte, h80, ha0, hc0]
        rw [hE] at he
        cases Option.some.inj he
        exact ⟨utf8Step_c2 b (by omega) hc0 l, by simp⟩
      · have hE : cp1252SpecByte b = some [0xc3, (b &&& 0x3f) + 0x80] := by
          simp [cp1252SpecByte, h80, ha0, hc0]
        rw [hE] at he
        cases Option.some.inj he
        have hmod : b &&& 0x3f = b % 0x40 := by
          rw [show (0x3f : Nat) = 2 ^ 6 - 1 from by norm_num,
            Nat.and_pow_two_sub_one_eq_mod]
        have h1 : 0x80 ≤ (b &&& 0x3f) + 0x80 := by omega
        have h2 : (b &&& 0x3f) + 0x80 < 0xc0 := by rw [hmod]; omega
        have hstep := utf8Step_c3 ((b &&& 0x3f) + 0x80) h1 h2 l
        have hback : ((b &&& 0x3f) + 0x80) + 0x40 = b := by rw [hmod]; omega
        rw [hback] at hstep
        exact ⟨hstep, by simp⟩

/-- The fuel-driven reference decoder inverts the claim mapping on byte
strings of assigned CP1252 bytes in 0x20..0xFF, for any sufficient fuel. -/
theorem utf8RefGo_spec_round (input : List Nat)
    (h : ∀ b ∈ input, 0x20 ≤ b ∧ b < 0x100 ∧ ¬ cp1252Unassigned b) :
    ∀ out fuel, cp1252Spec input = some out → out.length ≤ fuel →
      utf8RefGo fuel out = some input := by
  induction input with
  | nil =>
    intro out fuel hout _
    cases hout
    cases fuel <;> rfl
  | cons b rest ih =>
    intro out fuel hout hfuel
    obtain ⟨hb1, hb2, hb3⟩ := h b (by simp)
    rcases hsb : cp1252SpecByte b with _ | e
    · rw [cp1252Spec_cons, hsb] at hout
      cases hout
    rcases hsr : cp1252Spec rest with _ | t
    · rw [cp1252Spec_cons, hsb, hsr] at hout
      cases hout
    rw [cp1252Spec_cons, hsb, hsr] at hout
    cases Option.some.inj hout
    obtain ⟨hstep, he1⟩ := utf8Step_specByte b hb2 hb3 e hsb t
    rcases hee : e with _ | ⟨x, erest⟩
    · rw [hee] at he1; simp at he1
    rw [← hee]
    have hlen : (e ++ t).length = e.length + t.length := by simp
    rcases hfe : fuel with _ | f
    · rw [hfe, hee] at hfuel
      simp at hfuel
    have hcons : e ++ t = x :: (erest ++ t) := by rw [hee]; rfl
    rw [hcons]
    rw [show utf8RefGo (f + 1) (x :: (erest ++ t))
          = match utf8Step (x :: (erest ++ t)) with
            | some p => (utf8RefGo f p.2).map (fun t2 => p.1 :: t2)
            | none => none from rfl]
    rw [← hcons, hstep]
    have hft : t.length ≤ f := by
      rw [hee] at hfuel
      simp at hfuel
      omega
    show (utf8RefGo f t).map (fun t2 => b :: t2) = some (b :: rest)
    rw [ih (fun x2 hx2 => h x2 (List.mem_cons_of_mem b hx2)) t f hsr hft]
    rfl

/-- The claim mapping succeeds on every byte string without unassigned
bytes. -/
theorem cp1252Spec_total (input : List Nat)
    (h : ∀ b ∈ input, ¬ cp1252Unassigned b) :
    ∃ out, cp1252Spec input = some out := by
  induction input with
  | nil => exact ⟨[], rfl⟩
  | cons b rest ih =>
    obtain ⟨t, ht⟩ := ih (fun x hx => h x (List.mem_cons_of_mem b hx))
    have hb := h b (by simp)
    have hsb : ∃ e, cp1252SpecByte b = some e := by
      by_cases h80 : b < 0x80
      · exact ⟨[b], by simp [cp1252SpecByte, h80]⟩
      by_cases ha0 : b < 0xa0
      · exact ⟨cp1252RowBytes (b - 0x80), by
          simp [cp1252SpecByte, h80, ha0, hb]⟩
      by_cases hc0 : b < 0xc0
      · exact ⟨[0xc2, b], by simp [cp1252SpecByte, h80, ha0, hc0]⟩
      · exact ⟨[0xc3, (b &&& 0x3f) + 0x80], by
          simp [cp1252SpecByte, h80, ha0, hc0]⟩
    obtain ⟨e, he⟩ := hsb
    exact ⟨e ++ t, by rw [cp1252Spec_cons, he, ht]⟩

/-- A list of non-NUL bytes is its own pre-NUL segment. -/
theorem takeWhile_of_ne_zero (input : List Nat) (h : ∀ b ∈ input, b ≠ 0) :
    input.takeWhile (fun b => b ≠ 0) = input := by
  induction input with
  | nil => rfl
  | cons b rest ih =>
    have hb : b ≠ 0 := h b (by simp)
    have hr : ∀ x ∈ rest, x ≠ 0 := fun x hx => h x (List.mem_cons_of_mem b hx)
    rw [List.takeWhile_cons]
    rw [if_pos (by simpa using hb)]
    rw [ih hr]

/-- Claim C6 (amended: the five unassigned CP1252 bytes 0x81, 0x8D, 0x8F,
0x90, 0x9D are excluded from the range, since mobi_cp1252_to_utf8 rejects
them with MOBI_DATA_CORRUPT): converting a byte string of assigned bytes in
0x20..0xFF and decoding the output with the reference UTF-8 to CP1252
decoder yields the original byte string. -/
theorem C6_cp1252_round_trip (input : List Nat)
    (h : ∀ b ∈ input, 0x20 ≤ b ∧ b < 0x100 ∧ ¬ cp1252Unassigned b) :
    ∃ payload,
      mobi_cp1252_to_utf8 input (3 * input.length + 1) =
        some (payload ++ [0], payload.length) ∧
      utf8Ref payload = some input := by
  obtain ⟨out, hout⟩ := cp1252Spec_total input (fun b hb => (h b hb).2.2)
  refine ⟨out, ?_, utf8RefGo_spec_round input h out out.length hout le_rfl⟩
  unfold mobi_cp1252_to_utf8
  rw [cp1252Go_eq_spec input 0 (3 * input.length + 1) (by omega)]
  rw [takeWhile_of_ne_zero input (fun b hb => by have := (h b hb).1; omega)]
  rw [hout]

/-- Claim C6 witness: the byte string "Hé" (0x48 0xE9) round-trips. -/
theorem C6_witness :
    ∃ payload,
      mobi_cp1252_to_utf8 [72, 233] (3 * [72, 233].length + 1) =
        some (payload ++ [0], payload.length) ∧
      utf8Ref payload = some [72, 233] :=
  C6_cp1252_round_trip [72, 233] (by decide)

/-- Claim C6 counterexample: 0x81 lies in 0x20..0xFF but the conversion
itself fails with MOBI_DATA_CORRUPT, so no round trip exists for it. -/
theorem C6_counterexample :
    0x20 ≤ 0x81 ∧ 0x81 ≤ 0xff ∧
    mobi_cp1252_to_utf8 [0x81] (3 * 1 + 1) = none := by decide

/-- Claim C5 (amended: the round trip holds for the canonical encodings
(region * 4) << 8 | language of first-occurrence table positions — entries
whose string does not repeat at an earlier region of their row and whose
two-letter language code does not match an earlier row head.  Duplicate
strings such as the "Unknown"-region entries, the "ne" entry shadowed by
"neutral", and non-canonical numbers such as 257 fail the round trip, see
the counterexample): for such positions mobi_get_locale_string returns the
table entry and mobi_get_locale_number maps it back to the same number. -/
theorem C5_locale_round_trip (lang region : Nat)
    (h : localeFirstOccurrence lang region) :
    mobi_get_locale_string (((region * 4) <<< 8) ||| lang) =
      some (localeEntry lang region) ∧
    mobi_get_locale_number (localeEntry lang region) =
      ((region * 4) <<< 8) ||| lang := by
  have key : ∀ l < MOBI_LANG_MAX, ∀ r < MOBI_REGION_MAX,
      localeFirstOccurrence l r →
      mobi_get_locale_string (((r * 4) <<< 8) ||| l) =
        some (localeEntry l r) ∧
      mobi_get_locale_number (localeEntry l r) = ((r * 4) <<< 8) ||| l := by
    decide
  exact key lang h.1 region h.2.1 h

/-- Claim C5 witness: language 2 (Bulgarian), region 0. -/
theorem C5_witness :
    localeFirstOccurrence 2 0 ∧
    (mobi_get_locale_string (((0 * 4) <<< 8) ||| 2) =
      some (localeEntry 2 0) ∧
     mobi_get_locale_number (localeEntry 2 0) = ((0 * 4) <<< 8) ||| 2) :=
  ⟨by decide, C5_locale_round_trip 2 0 (by decide)⟩

/-- Claim C5 counterexample: locale number 257 has a table entry ("ar", via
region (257 >> 8) / 4 = 0), but looking the string back up yields 1, not
257. -/
theorem C5_counterexample :
    mobi_get_locale_string 257 = some "ar" ∧
    mobi_get_locale_number "ar" = 1 ∧ (1 : Nat) ≠ 257 := by
  refine ⟨by decide, by decide, by decide⟩
